import Mathlib

/-!
# Verification of the text-to-audio transcriber store and services

Shallow embedding of the Redux store slices (`filesSlice.ts`,
`settingsSlice.ts`), the persistence transforms (`store/index.ts`),
the API service (`transcriptionService.ts`) and the ZIP extraction
logic of the upload handler, followed by theorems settling the
specification claims about them.
-/

namespace TxAudio

/-! ## Data model (`types.ts`)

`ProcessedFile` as used throughout the slices: `audioSrc` and `error`
are optional string fields (`undefined` is modelled as `none`). -/

inductive FileStatus where
  | ready
  | processing
  | transcribed
  | error
deriving DecidableEq, Repr

structure ProcessedFile where
  id : String
  name : String
  content : String
  status : FileStatus
  audioSrc : Option String := none
  error : Option String := none
deriving DecidableEq, Repr

/-! ## Entity adapter (`createEntityAdapter<ProcessedFile>`)

The adapter keeps an `ids` array and an `entities` record keyed by id.
We model `entities` as an association list.  The `sortComparer` of the
adapter only affects the order of `ids` (locale-aware name comparison);
no claim depends on that order, so new ids are appended. -/

structure EntityState where
  ids : List String
  entities : List (String × ProcessedFile)
deriving DecidableEq, Repr

def emptyEntityState : EntityState := ⟨[], []⟩

def getEntity (es : EntityState) (id : String) : Option ProcessedFile :=
  es.entities.lookup id

def containsId (es : EntityState) (id : String) : Bool :=
  (getEntity es id).isSome

/-- `adapter.addOne`: ignores the entity when its id is already present. -/
def addOne (es : EntityState) (f : ProcessedFile) : EntityState :=
  if containsId es f.id then es
  else ⟨es.ids ++ [f.id], es.entities ++ [(f.id, f)]⟩

/-- `adapter.addMany`: adds the entities one after the other. -/
def addMany (es : EntityState) (fs : List ProcessedFile) : EntityState :=
  fs.foldl addOne es

/-- `adapter.updateOne`: applies the change to the entity with the given
id; a no-op when the id is absent. -/
def updateOne (es : EntityState) (id : String) (g : ProcessedFile → ProcessedFile) :
    EntityState :=
  ⟨es.ids, es.entities.map (fun p => if p.1 = id then (p.1, g p.2) else p)⟩

/-! ## Record-level change functions of `filesSlice.ts` -/

/-- JS truthiness of the optional `error` argument: `undefined` and the
empty string are falsy. -/
def errTruthy : Option String → Bool
  | some s => s ≠ ""
  | none => false

/-- `updateFileStatus` changes object:
`{ status, ...(error && { error }), ...(status !== 'error' && { error: undefined }) }`.
The later spread wins, so for a non-error status the error field is
always cleared; for status `error` the field is set when the argument is
truthy and kept otherwise. -/
def updateFileStatusChange (status : FileStatus) (err : Option String)
    (f : ProcessedFile) : ProcessedFile :=
  { f with
    status := status
    error :=
      if status ≠ FileStatus.error then none
      else if errTruthy err then err else f.error }

/-- `updateFileWithAudio` changes object:
`{ status: 'transcribed', audioSrc, error: undefined }`. -/
def updateFileWithAudioChange (audioSrc : String) (f : ProcessedFile) : ProcessedFile :=
  { f with status := .transcribed, audioSrc := some audioSrc, error := none }

/-- `transcribeFile.pending` / `refetchAudioForFile.pending` changes:
`{ status: 'processing', error: undefined }`. -/
def synthPendingChange (f : ProcessedFile) : ProcessedFile :=
  { f with status := .processing, error := none }

/-- `transcribeFile.fulfilled` / `refetchAudioForFile.fulfilled` changes:
`{ status: 'transcribed', audioSrc, error: undefined }`. -/
def synthFulfilledChange (audioSrc : String) (f : ProcessedFile) : ProcessedFile :=
  { f with status := .transcribed, audioSrc := some audioSrc, error := none }

/-- `transcribeFile.rejected` / `refetchAudioForFile.rejected` changes:
`{ status: 'error', error: errorMessage }`.  The message is
`action.payload || action.error.message || 'Transcription failed'`,
always a string. -/
def synthRejectedChange (msg : String) (f : ProcessedFile) : ProcessedFile :=
  { f with status := .error, error := some msg }

/-! ## The store mutations named by the invariant claim -/

inductive FilesAction where
  | addProcessedFiles (files : List ProcessedFile)
  | updateFileStatus (fileId : String) (status : FileStatus) (error : Option String)
  | updateFileWithAudio (fileId : String) (audioSrc : String)
  | transcribePending (fileId : String)
  | transcribeFulfilled (fileId : String) (audioSrc : String)
  | transcribeRejected (fileId : String) (msg : String)
  | refetchPending (fileId : String)
  | refetchFulfilled (fileId : String) (audioSrc : String)
  | refetchRejected (fileId : String) (msg : String)

def applyFilesAction (a : FilesAction) (es : EntityState) : EntityState :=
  match a with
  | .addProcessedFiles fs => addMany es fs
  | .updateFileStatus id status err => updateOne es id (updateFileStatusChange status err)
  | .updateFileWithAudio id src => updateOne es id (updateFileWithAudioChange src)
  | .transcribePending id => updateOne es id synthPendingChange
  | .transcribeFulfilled id src => updateOne es id (synthFulfilledChange src)
  | .transcribeRejected id msg => updateOne es id (synthRejectedChange msg)
  | .refetchPending id => updateOne es id synthPendingChange
  | .refetchFulfilled id src => updateOne es id (synthFulfilledChange src)
  | .refetchRejected id msg => updateOne es id (synthRejectedChange msg)

def applyFilesActions (as : List FilesAction) (es : EntityState) : EntityState :=
  as.foldl (fun s a => applyFilesAction a s) es

/-! ## The claimed mutual-exclusion invariant -/

/-- A "defined (non-empty)" audio handle. -/
def definedAudio (f : ProcessedFile) : Bool :=
  match f.audioSrc with
  | some s => s ≠ ""
  | none => false

def definedError (f : ProcessedFile) : Bool :=
  f.error.isSome

/-- The invariant exactly as claimed: `status=transcribed` has no defined
error, `status=error` has no defined (non-empty) audioSrc, a defined
audioSrc implies `transcribed`, a defined error implies `error`. -/
def recordMutexInv (f : ProcessedFile) : Bool :=
  (!(f.status = FileStatus.transcribed) || !(definedError f)) &&
  (!(f.status = FileStatus.error) || !(definedAudio f)) &&
  (!(definedAudio f) || f.status = FileStatus.transcribed) &&
  (!(definedError f) || f.status = FileStatus.error)

/-- The half of the invariant the reducers do maintain: a defined error
field implies `status=error` (equivalently, any non-error status has no
error field). -/
def recordErrInv (f : ProcessedFile) : Bool :=
  !(definedError f) || f.status = FileStatus.error

def stateErrInv (es : EntityState) : Bool :=
  es.entities.all (fun p => recordErrInv p.2)

/-- Payload obligation: only `addProcessedFiles` inserts caller-supplied
records, so preservation needs them to satisfy the invariant (the upload
handler only builds such records). -/
def actionPayloadOk : FilesAction → Bool
  | .addProcessedFiles fs => fs.all recordErrInv
  | _ => true

/-! ## C1: the claimed mutual-exclusion invariant fails on the code

The reducers never clear `audioSrc` when a record moves to `processing`
or `error`.  Re-dispatching synthesis for an already transcribed record
and having it fail leaves `status=error` with the stale non-empty
`audioSrc`. -/

def exFileA : ProcessedFile :=
  { id := "a", name := "A.txt", content := "hi", status := .ready }

def c1CounterState : EntityState :=
  applyFilesActions
    [ .addProcessedFiles [exFileA],
      .transcribePending "a",
      .transcribeFulfilled "a" "blob:1",
      .transcribePending "a",
      .transcribeRejected "a" "boom" ]
    emptyEntityState

/-! ## Full files-slice state (`FilesState` in `filesSlice.ts`)

Only the fields the claims touch are carried along with the record
collection; `isReadingFiles`, `isDownloading` and `isRestoringAudio`
are independent booleans untouched by the operations modelled here. -/

structure TranscriptionProgress where
  current : Nat
  total : Nat
  currentFileName : Option String
deriving DecidableEq, Repr

structure FilesState where
  files : EntityState
  isTranscribing : Bool
  transcriptionProgress : TranscriptionProgress
  error : Option String
deriving DecidableEq, Repr

def initialFilesState : FilesState :=
  { files := emptyEntityState
    isTranscribing := false
    transcriptionProgress := ⟨0, 0, none⟩
    error := none }

/-- `Object.values(state.files.entities).some(f => f?.status === 'processing')` -/
def stillProcessing (es : EntityState) : Bool :=
  es.entities.any (fun p => p.2.status = FileStatus.processing)

/-- `setTranscriptionProgress` reducer. -/
def setTranscriptionProgress (p : TranscriptionProgress) (st : FilesState) : FilesState :=
  { st with transcriptionProgress := p }

/-- `transcribeFile.pending` case: record goes to `processing`,
`isTranscribing := true`, slice error cleared. -/
def applyTranscribePending (fileId : String) (st : FilesState) : FilesState :=
  { st with
    files := updateOne st.files fileId synthPendingChange
    isTranscribing := true
    error := none }

/-- `transcribeFile.fulfilled` case, including the still-processing check
that may clear `isTranscribing`. -/
def applyTranscribeFulfilled (fileId : String) (audioSrc : String)
    (st : FilesState) : FilesState :=
  let files := updateOne st.files fileId (synthFulfilledChange audioSrc)
  { st with
    files := files
    isTranscribing := if stillProcessing files then st.isTranscribing else false }

/-- `transcribeFile.rejected` case, including the still-processing check. -/
def applyTranscribeRejected (fileId : String) (msg : String)
    (st : FilesState) : FilesState :=
  let files := updateOne st.files fileId (synthRejectedChange msg)
  { st with
    files := files
    isTranscribing := if stillProcessing files then st.isTranscribing else false }

/-! ## Synthesis attempts and the batch thunk

`createAsyncThunk` dispatches the `pending` action synchronously before
the payload creator runs, so the request to the service is sent strictly
between the `pending` and the settled (`fulfilled`/`rejected`) reducer.
A synthesis attempt is modelled as that ordered trace of states; the
outcome of the service call decides the settled action. -/

inductive SynthOutcome where
  | success (audioSrc : String)
  | failure (msg : String)
deriving DecidableEq, Repr

/-- The settled action of a `transcribeFile` dispatch. -/
def applyTranscribeSettled (fileId : String) (o : SynthOutcome)
    (st : FilesState) : FilesState :=
  match o with
  | .success src => applyTranscribeFulfilled fileId src st
  | .failure msg => applyTranscribeRejected fileId msg st

/-- Ordered state trace of one `dispatch(transcribeFile(...))`:
state at dispatch, state when the request is sent (after the `pending`
reducer), state after settlement. -/
def transcribeFileTrace (st : FilesState) (fileId : String) (o : SynthOutcome) :
    List FilesState :=
  let st1 := applyTranscribePending fileId st
  let st2 := applyTranscribeSettled fileId o st1
  [st, st1, st2]

/-- Record-collection trace of a synthesis attempt for either thunk
(`transcribeFile` or `refetchAudioForFile`): both `pending` reducers
apply `{ status: 'processing', error: undefined }` and both settle to
the same `fulfilled`/`rejected` changes. -/
def synthAttemptTrace (es : EntityState) (fileId : String) (o : SynthOutcome) :
    List EntityState :=
  let es1 := updateOne es fileId synthPendingChange
  let es2 :=
    match o with
    | .success src => updateOne es1 fileId (synthFulfilledChange src)
    | .failure msg => updateOne es1 fileId (synthRejectedChange msg)
  [es, es1, es2]

structure BatchResult where
  successCount : Nat
  errorCount : Nat
deriving DecidableEq, Repr

/-- The `for` loop of `transcribeMultipleFiles`: before each file the
progress is set to `{ current: i+1, total, currentFileName }`, then
`transcribeFile` is dispatched and awaited; a success bumps
`successCount`, a failure is caught and bumps `errorCount`.  Returns
the trace of states after each dispatched action, the final state and
the two counters. -/
def batchLoop (total : Nat) (st : FilesState) (i : Nat)
    (jobs : List (ProcessedFile × SynthOutcome)) (succ errs : Nat) :
    List FilesState × FilesState × Nat × Nat :=
  match jobs with
  | [] => ([], st, succ, errs)
  | (file, o) :: rest =>
      let st1 := setTranscriptionProgress ⟨i + 1, total, some file.name⟩ st
      let st2 := applyTranscribePending file.id st1
      let st3 := applyTranscribeSettled file.id o st2
      let (succ2, errs2) :=
        match o with
        | .success _ => (succ + 1, errs)
        | .failure _ => (succ, errs + 1)
      let (tr, fin, s, e) := batchLoop total st3 (i + 1) rest succ2 errs2
      (st1 :: st2 :: st3 :: tr, fin, s, e)

/-- `transcribeMultipleFiles`: its own `pending` reducer fires first
(`isTranscribing := true`), the payload creator sets progress to
`{0, total}`, runs the loop, resets progress to `{0, 0}` and returns
the counts, and the `fulfilled` reducer records the aggregate. -/
def runTranscribeMultipleFiles (st : FilesState)
    (jobs : List (ProcessedFile × SynthOutcome)) :
    List FilesState × FilesState × BatchResult :=
  let st0 := { st with isTranscribing := true, error := none }
  let stA := setTranscriptionProgress ⟨0, jobs.length, none⟩ st0
  let (tr, stB, s, e) := batchLoop jobs.length stA 0 jobs 0 0
  let stC := setTranscriptionProgress ⟨0, 0, none⟩ stB
  let stD :=
    { stC with
      isTranscribing := false
      error :=
        if e > 0 then
          some ("Completed with " ++ toString s ++ " successes and " ++
            toString e ++ " errors")
        else stC.error }
  (st0 :: stA :: tr ++ [stC, stD], stD, ⟨s, e⟩)

/-! ## `transcriptionService.ts`: `transcribeText`

The empty-input guard runs before the `try` block that contains the
`fetch`, so a failing guard means no request body is ever built and no
network call is made.  We stage the function: the first stage either
fails with the spec's `EmptyInput` error (the thrown
`Cannot transcribe empty text for …` message) or produces the request
body sent to `POST /v1/audio/speech`.  `jsTrim` models JS
`String.prototype.trim`. -/

/-- JS `String.prototype.startsWith`, modelled over the character list
so that it evaluates by structural recursion. -/
def strStartsWith (s pre : String) : Bool :=
  s.data.take pre.data.length == pre.data

/-- JS `String.prototype.endsWith`, modelled over the character list. -/
def strEndsWith (s suffix : String) : Bool :=
  s.data.reverse.take suffix.data.length == suffix.data.reverse

/-- JS `String.prototype.toLowerCase` (over the character list). -/
def lowerStr (s : String) : String :=
  String.mk (s.data.map Char.toLower)

/-- JS `String.prototype.trim`: strip leading and trailing whitespace
(modelled over the character list so that it evaluates by structural
recursion). -/
def jsTrim (s : String) : String :=
  String.mk
    (((s.data.dropWhile Char.isWhitespace).reverse.dropWhile
        Char.isWhitespace).reverse)

structure SpeechRequestBody where
  input : String
  model : String
  voice : String
  speed : Nat
  response_format : String
  stream : Bool
  return_download_link : Bool
deriving DecidableEq, Repr

inductive TranscribeStart where
  | emptyInput (msg : String)
  | request (body : SpeechRequestBody)
deriving DecidableEq, Repr

/-- `if (!text || text.trim().length === 0) throw ...` and otherwise the
construction of `requestBody`.  The playback `speed` is only carried
through, so its numeric type is immaterial. -/
def transcribeTextStart (text fileName voice : String) (speed : Nat) :
    TranscribeStart :=
  if text = "" ∨ (jsTrim text).length = 0 then
    .emptyInput ("Cannot transcribe empty text for " ++ fileName ++ ".")
  else
    .request
      { input := text
        model := "kokoro"
        voice := voice
        speed := speed
        response_format := "mp3"
        stream := false
        return_download_link := true }

/-! ## `transcriptionService.ts`: `fetchAvailableVoices`

A small JSON model for the parsed response body and the normalization
cascade of the function, then the whole function with its catch-all
fallback. -/

inductive Json where
  | null
  | bool (b : Bool)
  | num (n : Int)
  | str (s : String)
  | arr (xs : List Json)
  | obj (fields : List (String × Json))

namespace Json

def isTruthy : Json → Bool
  | .null => false
  | .bool b => b
  | .num n => n ≠ 0
  | .str s => s ≠ ""
  | .arr _ => true
  | .obj _ => true

/-- JS property access `data.k`: defined only on objects (on primitives
and arrays the properties used here are `undefined`). -/
def getField (j : Json) (k : String) : Option Json :=
  match j with
  | .obj fields => fields.lookup k
  | _ => none

def isStr : Json → Bool
  | .str _ => true
  | _ => false

def asStr : Json → Option String
  | .str s => some s
  | _ => none

/-- `typeof v?.id === 'string'` for an element of a voices array. -/
def hasStrId (j : Json) : Bool :=
  match getField j "id" with
  | some (.str _) => true
  | _ => false

def idOrEmpty (j : Json) : String :=
  match getField j "id" with
  | some (.str s) => s
  | _ => ""

/-- `typeof data === 'object' && data !== null` (arrays included, but an
array never reaches the fallback because Case 1 returns first). -/
def isObjectLike : Json → Bool
  | .obj _ => true
  | .arr _ => true
  | _ => false

/-- `data && Array.isArray(data.voices) && data.voices.every(v => typeof v === 'string')` -/
def voicesAllStr (data : Json) : Bool :=
  data.isTruthy &&
    (match data.getField "voices" with
     | some (.arr vs) => vs.all Json.isStr
     | _ => false)

/-- `data && Array.isArray(data.voices) && data.voices.every(v => typeof v?.id === 'string')` -/
def voicesAllId (data : Json) : Bool :=
  data.isTruthy &&
    (match data.getField "voices" with
     | some (.arr vs) => vs.all Json.hasStrId
     | _ => false)

end Json

/-- The response-shape normalization of `fetchAvailableVoices`, between
the `response.json()` and the final `throw`: Case 1 a bare array
(strings filtered), Case 2 `{voices: string[]}`, Case 3
`{voices: {id: string}[]}`, then the documented scan for the first
array-valued key, and otherwise the
`Unexpected format for available voices response.` error. -/
def normalizeVoices (data : Json) : Except String (List String) :=
  match data with
  | .arr xs => .ok (xs.filterMap Json.asStr)
  | _ =>
    if data.voicesAllStr then
      match data.getField "voices" with
      | some (.arr vs) => .ok (vs.filterMap Json.asStr)
      | _ => .error "unreachable"
    else if data.voicesAllId then
      match data.getField "voices" with
      | some (.arr vs) => .ok (vs.map Json.idOrEmpty)
      | _ => .error "unreachable"
    else if data.isObjectLike then
      match data with
      | .obj fields =>
        match fields.find? (fun p => match p.2 with | .arr _ => true | _ => false) with
        | some (_, .arr pv) =>
          if pv.all Json.isStr then .ok (pv.filterMap Json.asStr)
          else if pv.all Json.hasStrId then .ok (pv.map Json.idOrEmpty)
          else .error "Unexpected format for available voices response."
        | _ => .error "Unexpected format for available voices response."
      | _ => .error "Unexpected format for available voices response."
    else .error "Unexpected format for available voices response."

/-- The world the voice-list call runs against: the `fetch` either
throws, or yields a response with an `ok` flag and a body that either
parses to JSON or fails to parse. -/
inductive VoicesWorld where
  | unreachable (msg : String)
  | response (ok : Bool) (status : Nat) (statusText : String) (body : Option Json)

/-- `fetchAvailableVoices`: every failure path — fetch throwing, a
non-2xx status, an unparsable body, or an unrecognized shape — is
caught by the function's own `catch`, which returns the hardcoded
fallback `['am_michael', 'af_heart']`.  The function never rejects. -/
def fetchAvailableVoices (w : VoicesWorld) : Except String (List String) :=
  match w with
  | .unreachable _ => .ok ["am_michael", "af_heart"]
  | .response ok _ _ body =>
    if !ok then .ok ["am_michael", "af_heart"]
    else
      match body with
      | none => .ok ["am_michael", "af_heart"]
      | some data =>
        match normalizeVoices data with
        | .ok vs => .ok vs
        | .error _ => .ok ["am_michael", "af_heart"]

/-- The failure condition of the claim: the service is unreachable, the
response is non-2xx, or the body shape is entirely unrecognized. -/
def voicesCallFails (w : VoicesWorld) : Bool :=
  match w with
  | .unreachable _ => true
  | .response ok _ _ body =>
    !ok ||
      (match body with
       | none => true
       | some data => (normalizeVoices data).isOk = false)

/-! ## ZIP extraction in the upload handler (`handleFilesSelected`)

`zip.forEach` visits the entries in order; an entry is extracted when it
is not a directory marker and its name ends in `.txt` or `.TXT`
(these two exact casings — the check is
`zipEntry.name.endsWith('.txt') || zipEntry.name.endsWith('.TXT')`).
Each extracted entry becomes one candidate record with a fresh
`crypto.randomUUID()` id (modelled by an id supply) and status
`ready`; reading the entry's content is modelled as succeeding (a read
failure still yields one record, with status `error`). -/

structure ZipEntry where
  name : String
  dir : Bool
deriving DecidableEq, Repr

def isZipTextEntry (e : ZipEntry) : Bool :=
  !e.dir && (strEndsWith e.name ".txt" || strEndsWith e.name ".TXT")

def extractZipTexts (uuid : Nat → String) :
    List (ZipEntry × String) → Nat → List ProcessedFile
  | [], _ => []
  | (e, content) :: rest, n =>
    if isZipTextEntry e then
      { id := uuid n, name := e.name, content := content, status := .ready } ::
        extractZipTexts uuid rest (n + 1)
    else
      extractZipTexts uuid rest n

/-! ## Persistence write transform (`filesTransform.in` in `store/index.ts`)

When persisting, each record whose `audioSrc` starts with `blob:` gets
its `audioSrc` blanked to the empty string; nothing else is touched. -/

def hasBlobAudio (f : ProcessedFile) : Bool :=
  match f.audioSrc with
  | some s => strStartsWith s "blob:"
  | none => false

def blankBlobAudio (f : ProcessedFile) : ProcessedFile :=
  if hasBlobAudio f then { f with audioSrc := some "" } else f

def filesTransformIn (entities : List (String × ProcessedFile)) :
    List (String × ProcessedFile) :=
  entities.map (fun p => (p.1, blankBlobAudio p.2))

/-! ## Persistence read repair (`filesTransform.out` and
`filesPersistConfig.migrate`)

The persisted `files` collection may be structurally damaged.  `RawIds`
and `RawEntities` model what JavaScript can find there: the field
absent (or otherwise falsy), present but of the wrong kind (a truthy
primitive), or of the expected kind. -/

inductive RawIds where
  | absent
  | notArray
  | arr (ids : List String)
deriving DecidableEq, Repr

inductive RawEntities where
  | absent
  | prim
  | obj (m : List (String × ProcessedFile))
deriving DecidableEq, Repr

structure RawFilesInner where
  ids : RawIds
  entities : RawEntities
deriving DecidableEq, Repr

/-- The whole outbound (stored) state: missing, missing its `files`
field, or carrying a raw files collection. -/
inductive RawOutbound where
  | noState
  | noFiles
  | files (inner : RawFilesInner)
deriving DecidableEq, Repr

/-- `filesAdapter.getInitialState()`: `{ ids: [], entities: {} }`. -/
def initialAdapterRaw : RawFilesInner := ⟨.arr [], .obj []⟩

/-- `!filesState.ids || !Array.isArray(filesState.ids)`. -/
def rawIdsBad : RawIds → Bool
  | .arr _ => false
  | _ => true

/-- `filesTransform.out`: no state or no `files` field yields the
cached initial adapter state; a collection with a bad index or missing
entities is repaired from `Object.keys(entities)` when the entities are
an object and replaced by the initial state otherwise; anything else is
returned unchanged. -/
def filesTransformOut (raw : RawOutbound) : RawFilesInner :=
  match raw with
  | .noState => initialAdapterRaw
  | .noFiles => initialAdapterRaw
  | .files inner =>
    if rawIdsBad inner.ids || inner.entities = RawEntities.absent then
      match inner.entities with
      | .obj m => ⟨.arr (m.map Prod.fst), .obj m⟩
      | _ => initialAdapterRaw
    else inner

/-- `filesPersistConfig.migrate`: replaces the collection by the initial
adapter state when `!state.files.ids || !state.files.entities`. -/
def migrateFiles (inner : RawFilesInner) : RawFilesInner :=
  if inner.ids = RawIds.absent || inner.entities = RawEntities.absent then
    initialAdapterRaw
  else inner

/-- A well-formed collection: an ids array together with an entities
object. -/
def rawWellFormed (inner : RawFilesInner) : Bool :=
  (match inner.ids with | .arr _ => true | _ => false) &&
  (match inner.entities with | .obj _ => true | _ => false)

/-! ## Settings slice (`settingsSlice.ts`) -/

structure SettingsState where
  selectedVoice : String
  availableVoices : List String
  selectedSpeed : Nat
  isLoadingVoices : Bool
deriving DecidableEq, Repr

def initialSettingsState : SettingsState :=
  { selectedVoice := "am_michael"
    availableVoices := ["am_michael"]
    selectedSpeed := 1
    isLoadingVoices := false }

/-- `Array.from(new Set(l))`: deduplication keeping the first
occurrence, in insertion order. -/
def jsSetAux (seen : List String) : List String → List String
  | [] => []
  | x :: xs =>
    if x ∈ seen then jsSetAux seen xs
    else x :: jsSetAux (x :: seen) xs

def jsSetList (l : List String) : List String :=
  jsSetAux [] l

/-- `setAvailableVoices` reducer. -/
def setAvailableVoices (voices : List String) (st : SettingsState) : SettingsState :=
  { st with availableVoices := voices }

/-- `loadVoices.fulfilled`: dedupe `['am_michael', ...payload]`, store
it, and pick `am_michael` when present (it always is) or otherwise the
first voice. -/
def loadVoicesFulfilled (payload : List String) (st : SettingsState) : SettingsState :=
  let uniqueVoices := jsSetList ("am_michael" :: payload)
  { st with
    isLoadingVoices := false
    availableVoices := uniqueVoices
    selectedVoice :=
      if "am_michael" ∈ uniqueVoices then "am_michael"
      else if uniqueVoices.length > 0 then uniqueVoices.headD st.selectedVoice
      else st.selectedVoice }

/-- `loadVoices.rejected`: keep the list when it already contains
`am_michael`, otherwise prepend-and-dedupe it; always select
`am_michael`. -/
def loadVoicesRejected (st : SettingsState) : SettingsState :=
  let voices :=
    if "am_michael" ∈ st.availableVoices then st.availableVoices
    else jsSetList ("am_michael" :: st.availableVoices)
  { st with
    isLoadingVoices := false
    availableVoices := voices
    selectedVoice := "am_michael" }

/-- The invariant claimed after `loadVoices` settles. -/
def settledVoicesInv (st : SettingsState) : Prop :=
  "am_michael" ∈ st.availableVoices ∧
    st.availableVoices.Nodup ∧
    st.selectedVoice ∈ st.availableVoices

/-- Entities usable for index reconstruction:
`entities && typeof entities === 'object'`. -/
def rawEntitiesUsable : RawEntities → Bool
  | .obj _ => true
  | _ => false

/-- The malformations enumerated by the structural-repair claim: the
stored state or its `files` field is missing, or the collection has a
missing/non-array index or missing entities. -/
def rawDamaged : RawOutbound → Bool
  | .noState => true
  | .noFiles => true
  | .files inner => rawIdsBad inner.ids || inner.entities = RawEntities.absent

/-! ## Concrete batch scenario for the two-record claim -/

def exBatchA : ProcessedFile :=
  { id := "idA", name := "A.txt", content := "alpha", status := .ready }

def exBatchB : ProcessedFile :=
  { id := "idB", name := "B.txt", content := "beta", status := .ready }

/-- Store state holding the two ready records. -/
def exBatchStart : FilesState :=
  { initialFilesState with files := addMany emptyEntityState [exBatchA, exBatchB] }

/-- The batch run where synthesis of A succeeds and synthesis of B
fails. -/
def exBatchRun : List FilesState × FilesState × BatchResult :=
  runTranscribeMultipleFiles exBatchStart
    [(exBatchA, .success "blob:a"), (exBatchB, .failure "boom")]

/-- A record used in persistence examples: transcribed with a transient
blob handle. -/
def exBlobFile : ProcessedFile :=
  { id := "b", name := "B.txt", content := "c", status := .transcribed,
    audioSrc := some "blob:xyz" }

/-! ## Helper lemmas -/

theorem recordErrInv_updateFileStatusChange (status : FileStatus) (err : Option String)
    (f : ProcessedFile) : recordErrInv (updateFileStatusChange status err f) = true := by
  cases status <;>
    simp [recordErrInv, updateFileStatusChange, definedError]

theorem recordErrInv_updateFileWithAudioChange (src : String) (f : ProcessedFile) :
    recordErrInv (updateFileWithAudioChange src f) = true := by
  simp [recordErrInv, updateFileWithAudioChange, definedError]

theorem recordErrInv_synthPendingChange (f : ProcessedFile) :
    recordErrInv (synthPendingChange f) = true := by
  simp [recordErrInv, synthPendingChange, definedError]

theorem recordErrInv_synthFulfilledChange (src : String) (f : ProcessedFile) :
    recordErrInv (synthFulfilledChange src f) = true := by
  simp [recordErrInv, synthFulfilledChange, definedError]

theorem recordErrInv_synthRejectedChange (msg : String) (f : ProcessedFile) :
    recordErrInv (synthRejectedChange msg f) = true := by
  simp [recordErrInv, synthRejectedChange, definedError]

theorem stateErrInv_updateOne (es : EntityState) (id : String)
    (g : ProcessedFile → ProcessedFile) (hg : ∀ f, recordErrInv (g f) = true)
    (hs : stateErrInv es = true) : stateErrInv (updateOne es id g) = true := by
  simp only [stateErrInv, List.all_eq_true, updateOne] at *
  intro p hp
  obtain ⟨q, hq, rfl⟩ := List.mem_map.mp hp
  by_cases h : q.1 = id
  · simp [h, hg]
  · simp only [h, if_false]
    exact hs q hq

theorem stateErrInv_addOne (es : EntityState) (f : ProcessedFile)
    (hs : stateErrInv es = true) (hf : recordErrInv f = true) :
    stateErrInv (addOne es f) = true := by
  unfold addOne
  split
  · exact hs
  · simp only [stateErrInv, List.all_eq_true] at *
    intro p hp
    rcases List.mem_append.mp hp with h | h
    · exact hs p h
    · rcases List.mem_singleton.mp h with rfl
      exact hf

theorem stateErrInv_addMany (fs : List ProcessedFile) :
    ∀ es : EntityState, stateErrInv es = true →
      (∀ f ∈ fs, recordErrInv f = true) → stateErrInv (addMany es fs) = true := by
  induction fs with
  | nil => intro es hs _; exact hs
  | cons f rest ih =>
    intro es hs hp
    have h1 : stateErrInv (addOne es f) = true :=
      stateErrInv_addOne es f hs (hp f (by simp))
    have h2 : addMany es (f :: rest) = addMany (addOne es f) rest := by
      simp [addMany]
    rw [h2]
    exact ih _ h1 (fun g hg => hp g (by simp [hg]))

/-! ## Claim C1 -/

/-- Claim C1 counterexample: starting from the empty store, add a ready
record, transcribe it successfully, dispatch transcription again and
let it fail.  All five actions are among the mutations listed by the
claim, yet the resulting record has `status=error` together with the
stale non-empty `audioSrc` `blob:1`, so the claimed mutual-exclusion
invariant is violated in a reachable state. -/
theorem c1_mutex_invariant_counterexample :
    (getEntity c1CounterState "a").map
        (fun f => (f.status, f.audioSrc, recordMutexInv f)) =
      some (FileStatus.error, some "blob:1", false) := by
  decide

/-- Claim C1 (amended): the error half of the invariant holds — a record
with a defined `error` field always has `status=error`, and every
transition to a non-error status clears `error` — and it is preserved by
every listed store mutation (for `addProcessedFiles`, provided the
inserted records satisfy it, as the ones built by the upload handler
do).  The `audioSrc` half of the original claim fails because no reducer
clears `audioSrc` on transitions to `processing` or `error`. -/
theorem c1_err_invariant_preserved (a : FilesAction) (es : EntityState)
    (hp : actionPayloadOk a = true) (hs : stateErrInv es = true) :
    stateErrInv (applyFilesAction a es) = true := by
  cases a with
  | addProcessedFiles fs =>
    exact stateErrInv_addMany fs es hs
      (by simpa [actionPayloadOk, List.all_eq_true] using hp)
  | updateFileStatus id status err =>
    exact stateErrInv_updateOne es id _ (recordErrInv_updateFileStatusChange status err) hs
  | updateFileWithAudio id src =>
    exact stateErrInv_updateOne es id _ (recordErrInv_updateFileWithAudioChange src) hs
  | transcribePending id =>
    exact stateErrInv_updateOne es id _ recordErrInv_synthPendingChange hs
  | transcribeFulfilled id src =>
    exact stateErrInv_updateOne es id _ (recordErrInv_synthFulfilledChange src) hs
  | transcribeRejected id msg =>
    exact stateErrInv_updateOne es id _ (recordErrInv_synthRejectedChange msg) hs
  | refetchPending id =>
    exact stateErrInv_updateOne es id _ recordErrInv_synthPendingChange hs
  | refetchFulfilled id src =>
    exact stateErrInv_updateOne es id _ (recordErrInv_synthFulfilledChange src) hs
  | refetchRejected id msg =>
    exact stateErrInv_updateOne es id _ (recordErrInv_synthRejectedChange msg) hs

/-- Claim C1 witness: the amended preservation theorem applied to a
concrete rejected transition on a one-record store. -/
theorem c1_err_invariant_preserved_witness :
    stateErrInv (applyFilesAction (.transcribeRejected "a" "boom")
      ⟨["a"], [("a", exFileA)]⟩) = true :=
  c1_err_invariant_preserved (.transcribeRejected "a" "boom")
    ⟨["a"], [("a", exFileA)]⟩ (by decide) (by decide)

/-! ## Claim C2 -/

/-- Claim C2: for the batch `[A(ready), B(ready)]` where A's synthesis
succeeds and B's fails, the final state has `A.status=transcribed`
(with its audio) and `B.status=error`, the progress counter reaches
`{current:2, total:2}` during the run and is reset to
`{current:0, total:0}` at the end, and the thunk returns
`{successCount:1, errorCount:1}` — B's failure did not prevent A from
being processed. -/
theorem c2_batch_mixed_outcome :
    (getEntity exBatchRun.2.1.files "idA").map
        (fun f => (f.status, f.audioSrc)) =
      some (FileStatus.transcribed, some "blob:a") ∧
    (getEntity exBatchRun.2.1.files "idB").map
        (fun f => (f.status, f.error)) =
      some (FileStatus.error, some "boom") ∧
    exBatchRun.2.2 = ⟨1, 1⟩ ∧
    (⟨2, 2, some "B.txt"⟩ : TranscriptionProgress) ∈
      exBatchRun.1.map FilesState.transcriptionProgress ∧
    exBatchRun.2.1.transcriptionProgress = ⟨0, 0, none⟩ := by
  decide

/-! ## Claim C3 -/

/-- Claim C3: for every input text that trims to the empty string (empty
or whitespace-only), `transcribeText` fails with the `EmptyInput` error
(`Cannot transcribe empty text for …`) at its first stage, before any
request body is built — the guard precedes the `try` block containing
the `fetch`, so no network call is attempted. -/
theorem c3_empty_input_fails_before_network (text fileName voice : String)
    (speed : Nat) (h : jsTrim text = "") :
    transcribeTextStart text fileName voice speed =
      .emptyInput ("Cannot transcribe empty text for " ++ fileName ++ ".") := by
  unfold transcribeTextStart
  have hlen : (jsTrim text).length = 0 := by rw [h]; rfl
  rw [if_pos (Or.inr hlen)]

/-- Claim C3 witness: the theorem applied to a whitespace-only input. -/
theorem c3_empty_input_witness :
    transcribeTextStart "  " "f.txt" "v" 1 =
      .emptyInput ("Cannot transcribe empty text for " ++ "f.txt" ++ ".") :=
  c3_empty_input_fails_before_network "  " "f.txt" "v" 1 (by decide)

/-! ## Claim C4 -/

/-- Claim C4: the three documented voice-list response shapes — a bare
array, `{"voices": [...]}` with strings, and `{"voices": [...]}` with
`{id: ...}` records — all normalize to the same list `["x", "y"]`. -/
theorem c4_voice_shapes_normalize :
    normalizeVoices (.arr [.str "x", .str "y"]) = .ok ["x", "y"] ∧
    normalizeVoices (.obj [("voices", .arr [.str "x", .str "y"])]) = .ok ["x", "y"] ∧
    normalizeVoices
        (.obj [("voices", .arr [.obj [("id", .str "x")], .obj [("id", .str "y")]])]) =
      .ok ["x", "y"] :=
  ⟨rfl, rfl, rfl⟩

/-! ## Claim C5 -/

/-- Claim C5 counterexample: with the service unreachable (the `fetch`
throws), `fetchAvailableVoices` does not fail — its own `catch` returns
the hardcoded fallback `['am_michael', 'af_heart']` as a successful
result, contradicting the claim that the operation itself returns an
error and that the caller substitutes the fallback. -/
theorem c5_fallback_counterexample :
    fetchAvailableVoices (.unreachable "fetch failed") =
        .ok ["am_michael", "af_heart"] ∧
    (fetchAvailableVoices (.unreachable "fetch failed")).isOk = true :=
  ⟨rfl, rfl⟩

/-- Claim C5 (amended): when the voice-list call is unreachable, returns
a non-2xx status, has an unparsable body, or has an entirely
unrecognized shape, `fetchAvailableVoices` itself catches the failure
and fulfills with the hardcoded fallback `['am_michael', 'af_heart']`;
the failure is never propagated to the caller. -/
theorem c5_service_supplies_fallback (w : VoicesWorld)
    (h : voicesCallFails w = true) :
    fetchAvailableVoices w = .ok ["am_michael", "af_heart"] := by
  cases w with
  | unreachable msg => rfl
  | response ok status statusText body =>
    cases ok with
    | false => rfl
    | true =>
      cases body with
      | none => rfl
      | some data =>
        simp only [voicesCallFails, Bool.not_true, Bool.false_or] at h
        unfold fetchAvailableVoices
        cases hnv : normalizeVoices data with
        | ok vs => rw [hnv] at h; simp [Except.isOk, Except.toBool] at h
        | error e => simp [hnv]

/-- Claim C5 witness: the amended theorem applied to a 500 response. -/
theorem c5_service_supplies_fallback_witness :
    fetchAvailableVoices (.response false 500 "Internal Server Error" none) =
      .ok ["am_michael", "af_heart"] :=
  c5_service_supplies_fallback (.response false 500 "Internal Server Error" none)
    (by rfl)

/-! ## Claim C6 -/

/-- Claim C6 counterexample: `a.Txt` ends in the text-file suffix
case-insensitively, yet the extraction filter
(`endsWith('.txt') || endsWith('.TXT')`) skips it, so an archive whose
single non-directory entry is `a.Txt` yields zero candidate records
instead of the claimed one. -/
theorem c6_case_insensitive_counterexample :
    strEndsWith (lowerStr "a.Txt") ".txt" = true ∧
    extractZipTexts (fun _ => "uuid-0") [(⟨"a.Txt", false⟩, "hello")] 0 = [] := by
  constructor
  · decide
  · decide

/-- Claim C6 (amended): extraction yields exactly one candidate record
per non-directory entry whose name ends in exactly `.txt` or `.TXT`
(the two casings the code checks); every other entry — directory
markers, other suffixes, and other casings such as `.Txt` — is silently
skipped and contributes nothing to the output.  The output lists the
matching entries' names and contents in archive order. -/
theorem c6_exact_suffix_extraction (uuid : Nat → String)
    (entries : List (ZipEntry × String)) (n : Nat) :
    (extractZipTexts uuid entries n).map (fun f => (f.name, f.content)) =
      (entries.filter (fun p => isZipTextEntry p.1)).map (fun p => (p.1.name, p.2)) ∧
    (extractZipTexts uuid entries n).length =
      (entries.filter (fun p => isZipTextEntry p.1)).length ∧
    ∀ f ∈ extractZipTexts uuid entries n, f.status = FileStatus.ready := by
  induction entries generalizing n with
  | nil => exact ⟨rfl, rfl, by intro f hf; cases hf⟩
  | cons pc rest ih =>
    obtain ⟨e, c⟩ := pc
    obtain ⟨ih1, ih2, ih3⟩ := ih (n + 1)
    obtain ⟨jh1, jh2, jh3⟩ := ih n
    by_cases h : isZipTextEntry e = true
    · refine ⟨?_, ?_, ?_⟩
      · simp [extractZipTexts, h, ih1]
      · simp [extractZipTexts, h, ih2]
      · intro f hf
        simp only [extractZipTexts, h, if_true, List.mem_cons] at hf
        rcases hf with rfl | hf
        · rfl
        · exact ih3 f hf
    · refine ⟨?_, ?_, ?_⟩
      · simp [extractZipTexts, h, jh1]
      · simp [extractZipTexts, h, jh2]
      · intro f hf
        simp only [extractZipTexts, h, if_false] at hf
        exact jh3 f hf

/-- Claim C6 witness: the amended theorem applied to an archive with a
single matching `.txt` entry. -/
theorem c6_exact_suffix_extraction_witness :
    (extractZipTexts (fun _ => "u") [(⟨"a.txt", false⟩, "hi")] 0).length = 1 ∧
    ({ id := "u", name := "a.txt", content := "hi",
        status := FileStatus.ready } : ProcessedFile).status = FileStatus.ready := by
  have h := c6_exact_suffix_extraction (fun _ => "u") [(⟨"a.txt", false⟩, "hi")] 0
  refine ⟨by rw [h.2.1]; rfl, ?_⟩
  exact h.2.2 _ (by decide)

/-! ## Claim C7 -/

theorem lookup_cons_pair (a k : String) (v : ProcessedFile)
    (l : List (String × ProcessedFile)) :
    List.lookup a ((k, v) :: l) = if a == k then some v else List.lookup a l := by
  cases hak : a == k <;> simp [List.lookup, hak]

theorem lookup_map_update (id : String) (g : ProcessedFile → ProcessedFile)
    (l : List (String × ProcessedFile)) :
    List.lookup id (l.map (fun p => if p.1 = id then (p.1, g p.2) else p)) =
      Option.map g (List.lookup id l) := by
  induction l with
  | nil => rfl
  | cons p l ih =>
    obtain ⟨k, v⟩ := p
    by_cases h : k = id
    · subst h
      have h1 : (if (k, v).1 = k then ((k, v).1, g (k, v).2) else (k, v)) =
          (k, g v) := by simp
      rw [List.map_cons, h1, lookup_cons_pair, lookup_cons_pair, beq_self_eq_true]
      simp
    · have hb : (id == k) = false := beq_eq_false_iff_ne.mpr (fun hc => h hc.symm)
      have h1 : (if (k, v).1 = id then ((k, v).1, g (k, v).2) else (k, v)) =
          (k, v) := by simp [h]
      rw [List.map_cons, h1, lookup_cons_pair, lookup_cons_pair, hb]
      simp [ih]

theorem getEntity_updateOne (es : EntityState) (id : String)
    (g : ProcessedFile → ProcessedFile) :
    getEntity (updateOne es id g) id = (getEntity es id).map g := by
  simp only [getEntity, updateOne]
  exact lookup_map_update id g es.entities

/-- Claim C7: for a record present in the store, every synthesis attempt
(`transcribeFile` or `refetchAudioForFile`, whose traces coincide on the
record collection) applies the transition to `status=processing` before
the request is sent — the state at the request point (trace index 1)
holds the record as `synthPendingChange f`, which is in `processing` —
and from the pending application onward the record is never observed in
`ready`; it settles to `transcribed` or `error` without ever returning
to `ready`. -/
theorem c7_processing_before_request (es : EntityState) (fileId : String)
    (o : SynthOutcome) (f : ProcessedFile)
    (h : getEntity es fileId = some f) :
    ((synthAttemptTrace es fileId o).get? 1).bind (fun e => getEntity e fileId) =
      some (synthPendingChange f) ∧
    (synthPendingChange f).status = FileStatus.processing ∧
    (∀ es2 ∈ (synthAttemptTrace es fileId o).drop 1,
      ∀ g, getEntity es2 fileId = some g → g.status ≠ FileStatus.ready) := by
  have h1 : getEntity (updateOne es fileId synthPendingChange) fileId =
      some (synthPendingChange f) := by
    rw [getEntity_updateOne, h]; rfl
  refine ⟨?_, rfl, ?_⟩
  · simp only [synthAttemptTrace, List.get?, Option.bind]
    exact h1
  · intro es2 hmem g hg
    simp only [synthAttemptTrace, List.drop, List.mem_cons,
      List.mem_singleton, List.not_mem_nil, or_false] at hmem
    rcases hmem with rfl | rfl
    · rw [h1] at hg
      cases hg
      simp [synthPendingChange]
    · cases o with
      | success src =>
        rw [getEntity_updateOne, h1] at hg
        cases hg
        simp [synthFulfilledChange]
      | failure msg =>
        rw [getEntity_updateOne, h1] at hg
        cases hg
        simp [synthRejectedChange]

/-- Claim C7 witness: the theorem applied to a one-record store and a
successful outcome, including the never-ready conclusion evaluated at
the settled state of the trace. -/
theorem c7_processing_before_request_witness :
    ((synthAttemptTrace ⟨["a"], [("a", exFileA)]⟩ "a" (.success "s")).get? 1).bind
        (fun e => getEntity e "a") = some (synthPendingChange exFileA) ∧
    (synthPendingChange exFileA).status = FileStatus.processing ∧
    (synthFulfilledChange "s" (synthPendingChange exFileA)).status ≠
      FileStatus.ready := by
  have h := c7_processing_before_request ⟨["a"], [("a", exFileA)]⟩ "a"
    (.success "s") exFileA (by decide)
  refine ⟨h.1, h.2.1, ?_⟩
  exact h.2.2
    (updateOne (updateOne ⟨["a"], [("a", exFileA)]⟩ "a" synthPendingChange) "a"
      (synthFulfilledChange "s"))
    (by decide) (synthFulfilledChange "s" (synthPendingChange exFileA)) (by decide)

/-! ## Claim C8 -/

/-- Claim C8: the persistence write transform maps every record through
`blankBlobAudio`, which leaves `id`, `name`, `content`, `status` and
`error` unchanged for every record, blanks `audioSrc` to the empty
string exactly when it is a transient `blob:` handle (so a transcribed
record stays transcribed), and leaves records without such a handle
entirely unchanged. -/
theorem c8_write_transform_frame (es : List (String × ProcessedFile))
    (f : ProcessedFile) :
    filesTransformIn es = es.map (fun p => (p.1, blankBlobAudio p.2)) ∧
    (blankBlobAudio f).id = f.id ∧
    (blankBlobAudio f).name = f.name ∧
    (blankBlobAudio f).content = f.content ∧
    (blankBlobAudio f).status = f.status ∧
    (blankBlobAudio f).error = f.error ∧
    (hasBlobAudio f = true → (blankBlobAudio f).audioSrc = some "") ∧
    (hasBlobAudio f = false → blankBlobAudio f = f) := by
  refine ⟨rfl, ?_, ?_, ?_, ?_, ?_, ?_, ?_⟩ <;>
    by_cases h : hasBlobAudio f = true <;>
      simp_all [blankBlobAudio]

/-- Claim C8 witness: the theorem applied to a transcribed record with a
blob handle. -/
theorem c8_write_transform_frame_witness :
    (blankBlobAudio exBlobFile).audioSrc = some "" ∧
    (blankBlobAudio exBlobFile).status = exBlobFile.status := by
  have h := c8_write_transform_frame [] exBlobFile
  exact ⟨h.2.2.2.2.2.2.1 (by decide), h.2.2.2.2.1⟩

/-! ## Claim C9 -/

/-- Claim C9: for every stored value within the malformations the claim
enumerates (missing state, missing `files`, missing or non-array
index, missing entities), the load pipeline — the read transform
followed by the migration — returns a well-formed collection without
failing: when the entities map is usable, the index is reconstructed
purely as its keys with the entities kept; when it is missing or
unusable (or the whole `files` value is absent), the result is the
cached empty initial collection. -/
theorem c9_structural_repair (raw : RawOutbound) (h : rawDamaged raw = true) :
    rawWellFormed (migrateFiles (filesTransformOut raw)) = true ∧
    (∀ inner m, raw = .files inner → inner.entities = .obj m →
      migrateFiles (filesTransformOut raw) = ⟨.arr (m.map Prod.fst), .obj m⟩) ∧
    (∀ inner, raw = .files inner → rawEntitiesUsable inner.entities = false →
      migrateFiles (filesTransformOut raw) = initialAdapterRaw) ∧
    (raw = .noState ∨ raw = .noFiles →
      migrateFiles (filesTransformOut raw) = initialAdapterRaw) := by
  cases raw with
  | noState =>
    refine ⟨rfl, ?_, ?_, ?_⟩
    · intro inner m heq
      cases heq
    · intro inner heq
      cases heq
    · intro _
      rfl
  | noFiles =>
    refine ⟨rfl, ?_, ?_, ?_⟩
    · intro inner m heq
      cases heq
    · intro inner heq
      cases heq
    · intro _
      rfl
  | files inner =>
    obtain ⟨ids, ents⟩ := inner
    cases ents with
    | absent =>
      refine ⟨?_, ?_, ?_, ?_⟩
      · simp [filesTransformOut, migrateFiles, initialAdapterRaw, rawWellFormed]
      · intro inner m heq hents
        cases heq
        cases hents
      · intro inner heq _
        cases heq
        simp [filesTransformOut, migrateFiles, initialAdapterRaw]
      · intro hc
        rcases hc with hc | hc <;> cases hc
    | prim =>
      have hids : rawIdsBad ids = true := by simpa [rawDamaged] using h
      refine ⟨?_, ?_, ?_, ?_⟩
      · simp [filesTransformOut, hids, migrateFiles, initialAdapterRaw, rawWellFormed]
      · intro inner m heq hents
        cases heq
        cases hents
      · intro inner heq _
        cases heq
        simp [filesTransformOut, hids, migrateFiles, initialAdapterRaw]
      · intro hc
        rcases hc with hc | hc <;> cases hc
    | obj m =>
      have hids : rawIdsBad ids = true := by simpa [rawDamaged] using h
      refine ⟨?_, ?_, ?_, ?_⟩
      · simp [filesTransformOut, hids, migrateFiles, initialAdapterRaw, rawWellFormed]
      · intro inner m2 heq hents
        cases heq
        cases hents
        simp [filesTransformOut, hids, migrateFiles, initialAdapterRaw]
      · intro inner heq hus
        cases heq
        simp [rawEntitiesUsable] at hus
      · intro hc
        rcases hc with hc | hc <;> cases hc

/-- Claim C9 witness: a collection that lost its index but kept its
entities is repaired to the keys of the entities map. -/
theorem c9_structural_repair_witness :
    migrateFiles (filesTransformOut (.files ⟨.absent, .obj [("a", exFileA)]⟩)) =
      ⟨.arr ["a"], .obj [("a", exFileA)]⟩ := by
  have h := c9_structural_repair (.files ⟨.absent, .obj [("a", exFileA)]⟩) (by decide)
  exact h.2.1 ⟨.absent, .obj [("a", exFileA)]⟩ [("a", exFileA)] rfl rfl

/-! ## Claim C10 -/

theorem mem_jsSetAux (x : String) :
    ∀ (l seen : List String), x ∈ jsSetAux seen l ↔ x ∈ l ∧ x ∉ seen := by
  intro l
  induction l with
  | nil => intro seen; simp [jsSetAux]
  | cons y ys ih =>
    intro seen
    by_cases h : y ∈ seen
    · simp only [jsSetAux, if_pos h, ih, List.mem_cons]
      constructor
      · rintro ⟨hx, hns⟩
        exact ⟨Or.inr hx, hns⟩
      · rintro ⟨hx | hx, hns⟩
        · exact absurd (hx ▸ h) hns
        · exact ⟨hx, hns⟩
    · simp only [jsSetAux, if_neg h, List.mem_cons, ih]
      constructor
      · rintro (rfl | ⟨hx, hns⟩)
        · exact ⟨Or.inl rfl, h⟩
        · exact ⟨Or.inr hx, fun hc => hns (Or.inr hc)⟩
      · rintro ⟨hx | hx, hns⟩
        · exact Or.inl hx
        · by_cases hxy : x = y
          · exact Or.inl hxy
          · exact Or.inr ⟨hx, fun hc => hc.elim hxy hns⟩

theorem nodup_jsSetAux : ∀ (l seen : List String), (jsSetAux seen l).Nodup := by
  intro l
  induction l with
  | nil => intro seen; simp [jsSetAux]
  | cons y ys ih =>
    intro seen
    by_cases h : y ∈ seen
    · simpa [jsSetAux, if_pos h] using ih seen
    · simp only [jsSetAux, if_neg h]
      refine List.nodup_cons.mpr ⟨?_, ?_⟩
      · intro hc
        exact ((mem_jsSetAux y ys (y :: seen)).mp hc).2 (List.mem_cons_self y seen)
      · exact ih (y :: seen)

theorem mem_jsSetList (x : String) (l : List String) :
    x ∈ jsSetList l ↔ x ∈ l := by
  simp [jsSetList, mem_jsSetAux]

theorem nodup_jsSetList (l : List String) : (jsSetList l).Nodup :=
  nodup_jsSetAux l []

/-- Claim C10 counterexample: starting from the initial settings, the
exported `setAvailableVoices` reducer can store a duplicate-containing
list that includes `am_michael`; when `loadVoices` then rejects, the
rejected handler leaves the list untouched, so after the operation
settles `availableVoices` still contains duplicates, contradicting the
claimed no-duplicates property. -/
theorem c10_duplicates_counterexample :
    (loadVoicesRejected
        (setAvailableVoices ["am_michael", "x", "x"] initialSettingsState)).availableVoices =
      ["am_michael", "x", "x"] ∧
    ¬ (loadVoicesRejected
        (setAvailableVoices ["am_michael", "x", "x"] initialSettingsState)).availableVoices.Nodup := by
  constructor
  · rfl
  · decide

/-- Claim C10 (amended): after `loadVoices` fulfills — with any payload,
including the empty list — the settings satisfy all three properties:
`am_michael` is in `availableVoices`, the list has no duplicates, and
`selectedVoice` is a member.  After `loadVoices` rejects, `am_michael`
membership and `selectedVoice` membership still hold unconditionally,
and the list is duplicate-free provided it was duplicate-free before
(the handler either keeps it unchanged or replaces it with a
deduplicated list). -/
theorem c10_settled_voices (st : SettingsState) (payload : List String) :
    settledVoicesInv (loadVoicesFulfilled payload st) ∧
    ("am_michael" ∈ (loadVoicesRejected st).availableVoices ∧
      (loadVoicesRejected st).selectedVoice ∈ (loadVoicesRejected st).availableVoices) ∧
    (st.availableVoices.Nodup → (loadVoicesRejected st).availableVoices.Nodup) := by
  have hmem : "am_michael" ∈ jsSetList ("am_michael" :: payload) :=
    (mem_jsSetList _ _).mpr (List.mem_cons_self _ _)
  refine ⟨⟨?_, ?_, ?_⟩, ⟨?_, ?_⟩, ?_⟩
  · simpa [loadVoicesFulfilled] using hmem
  · simpa [loadVoicesFulfilled] using nodup_jsSetList ("am_michael" :: payload)
  · simp only [loadVoicesFulfilled, if_pos hmem]
    exact hmem
  · by_cases h : "am_michael" ∈ st.availableVoices
    · simpa [loadVoicesRejected, if_pos h] using h
    · simp only [loadVoicesRejected, if_neg h]
      exact (mem_jsSetList _ _).mpr (List.mem_cons_self _ _)
  · by_cases h : "am_michael" ∈ st.availableVoices
    · simpa [loadVoicesRejected, if_pos h] using h
    · simp only [loadVoicesRejected, if_neg h]
      exact (mem_jsSetList _ _).mpr (List.mem_cons_self _ _)
  · intro hnd
    by_cases h : "am_michael" ∈ st.availableVoices
    · simpa [loadVoicesRejected, if_pos h] using hnd
    · simp only [loadVoicesRejected, if_neg h]
      exact nodup_jsSetList _

/-- Claim C10 witness: the amended theorem applied to the initial
settings state and a one-voice payload. -/
theorem c10_settled_voices_witness :
    settledVoicesInv (loadVoicesFulfilled ["x"] initialSettingsState) ∧
    (loadVoicesRejected initialSettingsState).availableVoices.Nodup := by
  have h := c10_settled_voices initialSettingsState ["x"]
  exact ⟨h.1, h.2.2 (by decide)⟩

end TxAudio
